import Mathlib

/-!
Table-record mapper and configuration singleton

A shallow embedding of `models/table_record/table_record.go` and
`config/cache_config.go`.

* A value implementing `TableRecordInterface` is a pointer to a struct; it is
  embedded as `Rec`: the struct's fields as `reflect` sees them, the answers of
  the interface methods, and the `TableRecord` it owns.
* An `interface{}` handed to the database driver is an `Arg`: the address of a
  field, the address of `RecordID`, or an `int64` value.
* The database connection is a `Conn`: the answers the driver gives.  Every
  function that talks to the driver also returns the list of driver calls it
  made, in order (`Call`).
* A row is the list of the values of the selected columns.  `rows.Scan` is
  `rowsScan`: an arity check, then column i is converted and stored through
  destination i; the conversions are answers of the `Conn`.
* Go's `(value, error)` results keep their shape: a pair whose error component is
  `none` for `nil`.
-/

namespace Record

/-! ## Data model -/

/-- A Go `error` value (non-nil). -/
structure Error where
  msg : String
deriving DecidableEq, Repr

/-- A column value read from or written to the database. -/
inductive Value where
  | null
  | int (n : Int)
  | str (s : String)
deriving DecidableEq, Repr

/-- An `interface{}` passed to the driver as a query parameter or scan destination. -/
inductive Arg where
  /-- The value `v.Field(i).Addr().Interface()`: the address of the i-th struct field -/
  | fieldAddr (i : Nat)
  /-- The pointer `&ti.GetTableRecord().RecordID` -/
  | recordIDAddr
  /-- an `int64` passed by value (`RecordID`, `id`) -/
  | int64 (n : Int)
deriving DecidableEq, Repr

/-- Go `reflect.StructTag`, already split into its key/value pairs. -/
structure StructTag where
  pairs : List (String × String)
deriving DecidableEq, Repr

/-- Go `StructTag.Get`: the value of the first pair with that key, `""` when there is none. -/
def StructTag.Get (tag : StructTag) (key : String) : String :=
  match tag.pairs.find? (fun p => p.1 == key) with
  | some p => p.2
  | none => ""

/-- One field of the record struct as `reflect` presents it. -/
structure StructField where
  Name : String
  Tag : StructTag
  /-- The answer of `v.Field(i).CanInterface()` -/
  CanInterface : Bool
  /-- The answer of `v.Field(i).CanSet()` -/
  CanSet : Bool
  /-- the field's current content -/
  Val : Value
deriving DecidableEq, Repr

/-- The struct `builder.Builder`, embedded in `TableRecord`; only `Params` is read by this package. -/
structure Builder where
  Params : List Arg
  clauses : List String
deriving DecidableEq, Repr

/-- The struct `TableRecord`. -/
structure TableRecord where
  RecordID : Int
  isNew : Bool
  Builder : Builder
deriving DecidableEq, Repr

/-- A value implementing `TableRecordInterface` (a pointer to a struct). -/
structure Rec where
  /-- what `GetTableRecord()` points to -/
  tableRecord : TableRecord
  /-- what `GetPrimaryKeyName()` returns -/
  primaryKeyName : String
  /-- what `GetTableName()` returns -/
  tableName : String
  /-- the struct's fields in declaration order -/
  fields : List StructField
deriving DecidableEq, Repr

def Rec.GetTableRecord (ti : Rec) : TableRecord := ti.tableRecord

def Rec.GetPrimaryKeyName (ti : Rec) : String := ti.primaryKeyName

def Rec.GetTableName (ti : Rec) : String := ti.tableName

/-- The answer of `v.NumField()` -/
def Rec.NumField (ti : Rec) : Nat := ti.fields.length

/-- The method `SetIsNew`. -/
def TableRecord.SetIsNew (t : TableRecord) (new : Bool) : TableRecord :=
  { t with isNew := new }

/-- Go `strings.Join`. -/
def Join : List String → String → String
  | [], _ => ""
  | [a], _ => a
  | a :: b :: rest, sep => a ++ sep ++ Join (b :: rest) sep

/-! ## The driver -/

/-- Go `sql.Result`: the answer of `LastInsertId()`. -/
structure Result where
  LastInsertId : Except Error Int

/-- A call made to the database driver. -/
inductive Call where
  | Exec (query : String) (params : List Arg)
  | LastInsertId
  | Prepare (query : String)
  | Query (params : List Arg)
  | Next
  | Scan (dest : List Arg)
  | RowsClose
  | StmtClose
deriving DecidableEq, Repr

/-- Go `*sql.Stmt`: the answer of `stmt.Query(params...)`, the rows of the result set. -/
structure Stmt where
  Query : List Arg → Except Error (List (List Value))

/-- What `db.GetConnection()` returns: the driver's answers. A row of a result set is the
list of the values of the selected columns, in the order of the select list. `ToInt64` and
`ToField` are the conversions `rows.Scan` applies to a column value on its way into an
`int64` destination and into the i-th struct field: the converted value or the error. -/
structure Conn where
  Exec : String → List Arg → Except Error Result
  Prepare : String → Except Error Stmt
  ToInt64 : Value → Except Error Int
  ToField : Nat → Value → Except Error Value

/-- One step of `rows.Scan`: convert one column value and store it through one destination.
The record is returned as the step leaves it, with the conversion error if there is one. -/
def assignDest (db : Conn) (ti : Rec) : Arg → Value → Rec × Option Error
  | Arg.recordIDAddr, v =>
    match db.ToInt64 v with
    | .error err => (ti, some err)
    | .ok n => ({ ti with tableRecord := { ti.tableRecord with RecordID := n } }, none)
  | Arg.fieldAddr i, v =>
    if i < ti.fields.length then
      match db.ToField i v with
      | .error err => (ti, some err)
      | .ok w => ({ ti with fields := ti.fields.modify (fun f => { f with Val := w }) i }, none)
    else (ti, some ⟨"sql: Scan error: destination out of range"⟩)
  | Arg.int64 _, _ => (ti, some ⟨"sql: Scan error: destination not a pointer"⟩)

/-- The loop of `rows.Scan`: column i goes through destination i, left to right, stopping at
the first conversion error; what was stored before the error stays stored. -/
def assignAll (db : Conn) : List Value → List Arg → Rec → Rec × Option Error
  | v :: vs, d :: ds, ti =>
    match assignDest db ti d v with
    | (ti1, some err) => (ti1, some err)
    | (ti1, none) => assignAll db vs ds ti1
  | _, _, ti => (ti, none)

/-- Go `rows.Scan(dest...)` of `database/sql` on the current row, acting on the record the
destinations point into: an arity check, then column i goes through destination i. -/
def rowsScan (db : Conn) (row : List Value) (dest : List Arg) (ti : Rec) : Rec × Option Error :=
  if row.length ≠ dest.length then
    (ti, some ⟨"sql: expected destination arguments in Scan"⟩)
  else assignAll db row dest ti

/-! ## Reflection over the struct -/

/-- The loop of `GetFieldMapper`: `fuel` iterations starting at index `i`. -/
def fieldMapperLoop (ti : Rec) : Nat → Nat → List String → List Arg → List String × List Arg
  | 0, _, fieldName, fieldValue => (fieldName, fieldValue)
  | fuel + 1, i, fieldName, fieldValue =>
    match ti.fields.get? i with
    | none => (fieldName, fieldValue)
    | some f =>
      if !f.CanInterface || !f.CanSet then
        fieldMapperLoop ti fuel (i + 1) fieldName fieldValue
      else
        fieldMapperLoop ti fuel (i + 1) (fieldName ++ [f.Tag.Get "db"]) (fieldValue ++ [Arg.fieldAddr i])

/-- The function `GetFieldMapper`: the `db` tag names and the field addresses. -/
def GetFieldMapper (ti : Rec) : List String × List Arg :=
  fieldMapperLoop ti ti.NumField 0 [] []

/-! ## Query generation -/

/-- The loop of `getSaveFieldParams` over `s`, `fuel` iterations starting at index `i`. -/
def saveParamsLoop (fName : List String) (pk : String) : Nat → Nat → List String → List String
  | 0, _, s => s
  | fuel + 1, i, s =>
    match fName.get? i with
    | none => s
    | some n =>
      if n = pk then saveParamsLoop fName pk fuel (i + 1) s
      else saveParamsLoop fName pk fuel (i + 1) (s.set i "?")

/-- The function `getSaveFieldParams`. -/
def getSaveFieldParams (ti : Rec) : List String :=
  let fName := (GetFieldMapper ti).1
  let s := List.replicate fName.length ""
  saveParamsLoop fName ti.GetPrimaryKeyName fName.length 0 s

/-- The function `genSaveQuery`. -/
def genSaveQuery (ti : Rec) : String :=
  let fName := (GetFieldMapper ti).1
  "INSERT INTO " ++ ti.GetTableName ++ " (" ++ Join fName ", " ++ ") VALUES ( "
    ++ Join (getSaveFieldParams ti) ", " ++ " )"

/-- The loop of `getUpdateFieldParams`, `fuel` iterations starting at index `i`. -/
def updateParamsLoop (fName : List String) (pk : String) : Nat → Nat → List String → List String
  | 0, _, updateStmt => updateStmt
  | fuel + 1, i, updateStmt =>
    match fName.get? i with
    | none => updateStmt
    | some n =>
      if n = pk then updateParamsLoop fName pk fuel (i + 1) updateStmt
      else updateParamsLoop fName pk fuel (i + 1) (updateStmt.set i (n ++ " = ?"))

/-- The function `getUpdateFieldParams`. -/
def getUpdateFieldParams (ti : Rec) : List String :=
  let fName := (GetFieldMapper ti).1
  let updateStmt := List.replicate fName.length ""
  updateParamsLoop fName ti.GetPrimaryKeyName fName.length 0 updateStmt

/-- The function `genUpdateQuery`. -/
def genUpdateQuery (ti : Rec) : String :=
  "UPDATE  " ++ ti.GetTableName ++ " SET " ++ Join (getUpdateFieldParams ti) ", "
    ++ " WHERE " ++ ti.GetPrimaryKeyName ++ " = ?"

/-- The function `AllField`. -/
def AllField (ti : Rec) : String :=
  let fieldName := (GetFieldMapper ti).1
  let fieldName := [ti.GetPrimaryKeyName] ++ fieldName
  Join fieldName ","

/-! ## Saving -/

/-- The function `executeSaveUpdateQuery`: the `(int64, error)` result and the driver calls made. -/
def executeSaveUpdateQuery (db : Conn) (query : String) (params : List Arg) :
    (Int × Option Error) × List Call :=
  match db.Exec query params with
  | .error err => ((0, some err), [Call.Exec query params])
  | .ok res =>
    match res.LastInsertId with
    | .error err => ((0, some err), [Call.Exec query params, Call.LastInsertId])
    | .ok lastID => ((lastID, none), [Call.Exec query params, Call.LastInsertId])

/-- What a call of `Save` leaves behind: the returned error, the record, the driver calls. -/
structure SaveOutcome where
  err : Option Error
  ti : Rec
  calls : List Call

/-- The function `Save`. -/
def Save (db : Conn) (ti : Rec) : SaveOutcome :=
  let t := ti.GetTableRecord
  if t.isNew then
    let query := genSaveQuery ti
    let fValue := (GetFieldMapper ti).2
    let r := executeSaveUpdateQuery db query fValue
    match r.1.2 with
    | some err => { err := some err, ti := ti, calls := r.2 }
    | none =>
      let t1 := { t with RecordID := r.1.1 }
      { err := none, ti := { ti with tableRecord := t1.SetIsNew false }, calls := r.2 }
  else
    let query := genUpdateQuery ti
    let fValue := (GetFieldMapper ti).2
    let r := executeSaveUpdateQuery db query (fValue ++ [Arg.int64 ti.GetTableRecord.RecordID])
    match r.1.2 with
    | some err => { err := some err, ti := ti, calls := r.2 }
    | none => { err := none, ti := ti, calls := r.2 }

/-! ## Loading -/

/-- The destinations both loaders hand to `rows.Scan`:
`append([]interface{}{&ti.GetTableRecord().RecordID}, vField...)`. -/
def scanParams (ti : Rec) : List Arg :=
  let vField := (GetFieldMapper ti).2
  [Arg.recordIDAddr] ++ vField

/-- The statement `LoadByID` prepares. -/
def loadByIDQuery (ti : Rec) : String :=
  "SELECT " ++ AllField ti ++ " FROM " ++ ti.GetTableName ++ " WHERE "
    ++ ti.GetPrimaryKeyName ++ " = ?"

/-- What a call of `LoadByID` leaves behind. -/
structure LoadOutcome where
  err : Option Error
  ti : Rec
  calls : List Call

/-- The function `LoadByID`. -/
def LoadByID (db : Conn) (ti : Rec) (id : Int) : LoadOutcome :=
  let query := loadByIDQuery ti
  let params := [Arg.int64 id]
  match db.Prepare query with
  | .error err => { err := some err, ti := ti, calls := [Call.Prepare query] }
  | .ok stmt =>
    match stmt.Query params with
    | .error err =>
      { err := some err, ti := ti, calls := [Call.Prepare query, Call.Query params, Call.StmtClose] }
    | .ok rows =>
      match rows with
      | [] =>
        { err := none, ti := ti,
          calls := [Call.Prepare query, Call.Query params, Call.Next, Call.RowsClose, Call.StmtClose] }
      | row :: _ =>
        let params1 := scanParams ti
        match rowsScan db row params1 ti with
        | (ti1, some err) =>
          { err := some err, ti := ti1,
            calls := [Call.Prepare query, Call.Query params, Call.Next, Call.Scan params1,
              Call.RowsClose, Call.StmtClose] }
        | (ti1, none) =>
          { err := none, ti := { ti1 with tableRecord := ti1.GetTableRecord.SetIsNew false },
            calls := [Call.Prepare query, Call.Query params, Call.Next, Call.Scan params1,
              Call.RowsClose, Call.StmtClose] }

/-- The `for rows.Next()` loop of `ExecQuery`: the list built so far, and the calls made;
`nti` is the instance `ti.New()` returns. -/
def execQueryLoop (db : Conn) (nti : Rec) :
    List (List Value) → List Rec → List Call → (Option Error × List Rec) × List Call
  | [], tiList, calls => ((none, tiList), calls ++ [Call.Next])
  | row :: rest, tiList, calls =>
    let params := scanParams nti
    match rowsScan db row params nti with
    | (_, some err) => ((some err, []), calls ++ [Call.Next, Call.Scan params])
    | (nti1, none) =>
      let nti2 := { nti1 with tableRecord := nti1.GetTableRecord.SetIsNew false }
      execQueryLoop db nti rest (tiList ++ [nti2]) (calls ++ [Call.Next, Call.Scan params])

/-- The method `Query` of `TableRecord`: the prepared statement of the query the builder
yields for `tableName`, or the error of `Prepare`, and the driver calls made; `BuildQuery` is
the query builder's method. -/
def TableRecord.Query (BuildQuery : Record.Builder → String → String) (db : Conn)
    (t : TableRecord) (tableName : String) : Except Error Stmt × List Call :=
  let query := BuildQuery t.Builder tableName
  match db.Prepare query with
  | .error err => (.error err, [Call.Prepare query])
  | .ok stmt => (.ok stmt, [Call.Prepare query])

/-- What a call of `ExecQuery` leaves behind. -/
structure ExecOutcome where
  list : List Rec
  err : Option Error
  ti : Rec
  calls : List Call

/-- The function `ExecQuery`; `BuildQuery` and `ResetStmt` are the query builder's methods,
`nti` is the instance every call of `ti.New()` returns. -/
def ExecQuery (BuildQuery : Builder → String → String) (ResetStmt : Builder → Builder)
    (db : Conn) (nti : Rec) (ti : Rec) : ExecOutcome :=
  let t := ti.GetTableRecord
  let q := t.Query BuildQuery db ti.GetTableName
  match q.1 with
  | .error err => { list := [], err := some err, ti := ti, calls := q.2 }
  | .ok stmt =>
    match stmt.Query t.Builder.Params with
    | .error err =>
      { list := [], err := some err, ti := ti,
        calls := q.2 ++ [Call.Query t.Builder.Params, Call.StmtClose] }
    | .ok rows =>
      let r := execQueryLoop db nti rows [] (q.2 ++ [Call.Query t.Builder.Params])
      match r.1.1 with
      | some err =>
        { list := [], err := some err, ti := ti, calls := r.2 ++ [Call.RowsClose, Call.StmtClose] }
      | none =>
        { list := r.1.2, err := none,
          ti := { ti with tableRecord := { t with Builder := ResetStmt t.Builder } },
          calls := r.2 ++ [Call.RowsClose, Call.StmtClose] }

/-- The destinations of the `Scan` calls in a list of driver calls. -/
def scanDests : List Call → List (List Arg)
  | [] => []
  | Call.Scan dest :: rest => dest :: scanDests rest
  | _ :: rest => scanDests rest

/-- The statements of the `Exec` calls in a list of driver calls. -/
def execQueries : List Call → List String
  | [] => []
  | Call.Exec query _ :: rest => query :: execQueries rest
  | _ :: rest => execQueries rest

/-- The parameter lists of the `Exec` calls in a list of driver calls. -/
def execParams : List Call → List (List Arg)
  | [] => []
  | Call.Exec _ params :: rest => params :: execParams rest
  | _ :: rest => execParams rest

/-- The statements of the `Prepare` calls in a list of driver calls. -/
def prepareQueries : List Call → List String
  | [] => []
  | Call.Prepare query :: rest => query :: prepareQueries rest
  | _ :: rest => prepareQueries rest

/-! ## The mapper as the documentation describes it -/

/-- The fields that are both interfaceable and settable, each with its index, in
declaration order. -/
def mappedFields (ti : Rec) : List (Nat × StructField) :=
  ti.fields.enum.filter (fun p => p.2.CanInterface && p.2.CanSet)

/-- The documented result of `GetFieldMapper`: per mapped field its `db` tag and its address. -/
def GetFieldMapperSpec (ti : Rec) : List String × List Arg :=
  ((mappedFields ti).map (fun p => p.2.Tag.Get "db"),
   (mappedFields ti).map (fun p => Arg.fieldAddr p.1))

/-- Two records are instances of the same struct type: field by field the same name, tag,
`CanInterface` and `CanSet` (the contents may differ). -/
def sameStruct (a b : Rec) : Prop :=
  a.fields.map (fun f => (f.Name, f.Tag, f.CanInterface, f.CanSet)) =
    b.fields.map (fun f => (f.Name, f.Tag, f.CanInterface, f.CanSet))

/-! ## A concrete driver and concrete records -/

/-- A conversion into `int64` that takes integer columns only. -/
def intOnly : Value → Except Error Int
  | Value.int n => .ok n
  | _ => .error ⟨"sql: Scan error: converting to int64"⟩

/-- The row `(7, grace, grace@example.org)`. -/
def graceRow : List Value :=
  [Value.int 7, Value.str "grace", Value.str "grace@example.org"]

/-- A prepared statement whose result set is the one row `graceRow`. -/
def graceStmt : Stmt where
  Query := fun _ => .ok [graceRow]

/-- A driver on which every statement succeeds: inserts report id 42, queries return the one
row `graceRow`. -/
def okConn : Conn where
  Exec := fun _ _ => .ok { LastInsertId := .ok 42 }
  Prepare := fun _ => .ok graceStmt
  ToInt64 := intOnly
  ToField := fun _ v => .ok v

/-- A driver whose `Exec` and `Prepare` fail. -/
def downConn : Conn where
  Exec := fun _ _ => .error ⟨"connection refused"⟩
  Prepare := fun _ => .error ⟨"connection refused"⟩
  ToInt64 := intOnly
  ToField := fun _ v => .ok v

/-- A driver whose `Exec` succeeds and whose `LastInsertId` fails. -/
def noIdConn : Conn where
  Exec := fun _ _ => .ok { LastInsertId := .error ⟨"LastInsertId is not supported"⟩ }
  Prepare := fun _ => .error ⟨"connection refused"⟩
  ToInt64 := intOnly
  ToField := fun _ v => .ok v

/-- A fresh `user` record: an unexported `tr` field, then `Name` and `Email`. -/
def newUser : Rec where
  tableRecord := { RecordID := 0, isNew := true, Builder := { Params := [], clauses := [] } }
  primaryKeyName := "id"
  tableName := "users"
  fields :=
    [ { Name := "tr", Tag := ⟨[]⟩, CanInterface := false, CanSet := false, Val := Value.null },
      { Name := "Name", Tag := ⟨[("json", "name"), ("db", "name")]⟩, CanInterface := true,
        CanSet := true, Val := Value.str "ada" },
      { Name := "Email", Tag := ⟨[("db", "email")]⟩, CanInterface := true, CanSet := true,
        Val := Value.str "ada@example.org" } ]

/-- The same `user` record as loaded from row 7. -/
def storedUser : Rec :=
  { newUser with tableRecord := { RecordID := 7, isNew := false,
                                  Builder := { Params := [], clauses := [] } } }

/-- A fresh record whose struct also maps the primary-key column: `ID` is tagged `db:"id"`. -/
def keyedUser : Rec where
  tableRecord := { RecordID := 0, isNew := true, Builder := { Params := [], clauses := [] } }
  primaryKeyName := "id"
  tableName := "users"
  fields :=
    [ { Name := "ID", Tag := ⟨[("db", "id")]⟩, CanInterface := true, CanSet := true,
        Val := Value.int 0 },
      { Name := "Name", Tag := ⟨[("db", "name")]⟩, CanInterface := true, CanSet := true,
        Val := Value.str "ada" } ]

end Record

namespace Config

/-! ## The configuration singleton -/

/-- The struct `CacheConfig`; `D` is the embedded `cacheconf.DefaultCacheConfig`. -/
structure CacheConfig (D : Type) where
  DefaultCacheConfig : D
  UserTimeToRefresh : Int

/-- The package state: the allocated `CacheConfig` structs (a pointer is an index into
`heap`), the package variables `cacheConfig` and `once`, and the pointers `LoadEnvConfig`
was invoked on, in order. -/
structure State (D : Type) where
  heap : List (CacheConfig D)
  cacheConfig : Option Nat
  onceDone : Bool
  loadCalls : List Nat

/-- The package state at program start: `cacheConfig` is nil and `once` is unused. -/
def State.init (D : Type) : State D :=
  { heap := [], cacheConfig := none, onceDone := false, loadCalls := [] }

/-- Go `sync.Once.Do` in a sequential run: `f` runs only if no earlier `Do` has run. -/
def onceDo {D : Type} (f : State D → State D) (s : State D) : State D :=
  if s.onceDone then s else { f s with onceDone := true }

/-- The function literal handed to `once.Do`: allocate `&CacheConfig{}`, store the pointer,
then `LoadEnvConfig` fills the struct in place. -/
def initInstance {D : Type} (zero : D) (LoadEnvConfig : CacheConfig D → CacheConfig D)
    (s : State D) : State D :=
  let p := s.heap.length
  let fresh : CacheConfig D := { DefaultCacheConfig := zero, UserTimeToRefresh := 0 }
  let s1 := { s with heap := s.heap ++ [fresh], cacheConfig := some p }
  { s1 with heap := s1.heap.modify LoadEnvConfig p, loadCalls := s1.loadCalls ++ [p] }

/-- The function `GetInstance`: the returned pointer and the package state afterwards. -/
def GetInstance {D : Type} (zero : D) (LoadEnvConfig : CacheConfig D → CacheConfig D)
    (s : State D) : Option Nat × State D :=
  let s1 := onceDo (initInstance zero LoadEnvConfig) s
  (s1.cacheConfig, s1)

/-- A sequence of `n` calls of `GetInstance`: the pointers returned, in order, and the
package state afterwards. -/
def callSequence {D : Type} (zero : D) (LoadEnvConfig : CacheConfig D → CacheConfig D) :
    Nat → State D → List (Option Nat) × State D
  | 0, s => ([], s)
  | n + 1, s =>
    let r := GetInstance zero LoadEnvConfig s
    let rest := callSequence zero LoadEnvConfig n r.2
    (r.1 :: rest.1, rest.2)

end Config

namespace Record

/-! ## Helper lemmas: lists -/

theorem take_succ_of_lt {α : Type} (l : List α) (i : Nat) (h : i < l.length) :
    l.take (i + 1) = l.take i ++ [l[i]] := by
  rw [List.take_succ, List.getElem?_eq_getElem h]
  rfl

theorem take_succ_set {α : Type} (l : List α) (i : Nat) (a : α) (h : i < l.length) :
    (l.set i a).take (i + 1) = l.take i ++ [a] := by
  have h1 : i < (l.set i a).length := by simpa using h
  rw [take_succ_of_lt _ _ h1, List.set_take, List.set_eq_of_length_le (by simp)]
  simp

theorem drop_succ_set {α : Type} (l : List α) (i : Nat) (a : α) :
    (l.set i a).drop (i + 1) = l.drop (i + 1) :=
  List.drop_set_of_lt a l (Nat.lt_succ_self i)

/-! ## Helper lemmas: the reflection loop -/

theorem fieldMapperLoop_eq (ti : Rec) (fuel : Nat) :
    ∀ (i : Nat) (names : List String) (vals : List Arg), i + fuel = ti.fields.length →
    fieldMapperLoop ti fuel i names vals =
      (names ++ ((List.enumFrom i (ti.fields.drop i)).filter
          (fun p => p.2.CanInterface && p.2.CanSet)).map (fun p => p.2.Tag.Get "db"),
       vals ++ ((List.enumFrom i (ti.fields.drop i)).filter
          (fun p => p.2.CanInterface && p.2.CanSet)).map (fun p => Arg.fieldAddr p.1)) := by
  induction fuel with
  | zero =>
    intro i names vals h
    have : ti.fields.drop i = [] := List.drop_eq_nil_of_le (by omega)
    simp [fieldMapperLoop, this]
  | succ fuel ih =>
    intro i names vals h
    have hi : i < ti.fields.length := by omega
    have hd : ti.fields.drop i = ti.fields[i] :: ti.fields.drop (i + 1) :=
      List.drop_eq_getElem_cons hi
    have hg : ti.fields.get? i = some ti.fields[i] := by
      simp [List.get?_eq_getElem?, hi]
    rw [fieldMapperLoop, hg]
    simp only
    rw [hd, List.enumFrom_cons]
    by_cases hc : (!ti.fields[i].CanInterface || !ti.fields[i].CanSet) = true
    · rw [if_pos hc, ih (i + 1) names vals (by omega)]
      have : (ti.fields[i].CanInterface && ti.fields[i].CanSet) = false := by
        revert hc; cases ti.fields[i].CanInterface <;> cases ti.fields[i].CanSet <;> simp
      simp [List.filter_cons, this]
    · rw [if_neg hc, ih (i + 1) _ _ (by omega)]
      have : (ti.fields[i].CanInterface && ti.fields[i].CanSet) = true := by
        revert hc; cases ti.fields[i].CanInterface <;> cases ti.fields[i].CanSet <;> simp
      simp [List.filter_cons, this]

theorem GetFieldMapper_eq_spec (ti : Rec) : GetFieldMapper ti = GetFieldMapperSpec ti := by
  have h := fieldMapperLoop_eq ti ti.fields.length 0 [] [] (by simp)
  simpa [GetFieldMapper, GetFieldMapperSpec, mappedFields, Rec.NumField, List.enum] using h

theorem GetFieldMapper_length (ti : Rec) :
    (GetFieldMapper ti).1.length = (GetFieldMapper ti).2.length := by
  simp [GetFieldMapper_eq_spec, GetFieldMapperSpec]

theorem zip_map_map_same {α β γ : Type} (f : α → β) (g : α → γ) (l : List α) :
    List.zip (l.map f) (l.map g) = l.map (fun a => (f a, g a)) := by
  induction l with
  | nil => rfl
  | cons a l ih => simp [ih]

theorem GetFieldMapper_zip (ti : Rec) :
    List.zip (GetFieldMapper ti).1 (GetFieldMapper ti).2 =
      (mappedFields ti).map (fun p => (p.2.Tag.Get "db", Arg.fieldAddr p.1)) := by
  rw [GetFieldMapper_eq_spec]
  exact zip_map_map_same _ _ _

theorem mem_mappedFields (ti : Rec) (i : Nat) (f : StructField) :
    (i, f) ∈ mappedFields ti ↔
      ti.fields.get? i = some f ∧ f.CanInterface = true ∧ f.CanSet = true := by
  simp [mappedFields, List.mem_filter, List.mk_mem_enum_iff_getElem?, List.get?_eq_getElem?]

theorem mappedFields_index_increasing (ti : Rec) :
    List.Pairwise (fun a b => a < b) ((mappedFields ti).map Prod.fst) := by
  have hsub : ((mappedFields ti).map Prod.fst).Sublist (ti.fields.enum.map Prod.fst) :=
    List.Sublist.map _ (List.filter_sublist _)
  rw [List.enum_map_fst] at hsub
  exact List.Pairwise.sublist hsub (List.pairwise_lt_range _)

/-! ## Helper lemmas: the placeholder loops -/

theorem saveParamsLoop_eq (fName : List String) (pk : String) (fuel : Nat) :
    ∀ (i : Nat) (s : List String), i + fuel = fName.length → s.length = fName.length →
    saveParamsLoop fName pk fuel i s =
      s.take i ++ List.zipWith (fun n old => if n = pk then old else "?")
        (fName.drop i) (s.drop i) := by
  induction fuel with
  | zero =>
    intro i s h hs
    have h1 : fName.drop i = [] := List.drop_eq_nil_of_le (by omega)
    have h2 : s.take i = s := List.take_of_length_le (by omega)
    simp [saveParamsLoop, h1, h2]
  | succ fuel ih =>
    intro i s h hs
    have hi : i < fName.length := by omega
    have his : i < s.length := by omega
    have hd : fName.drop i = fName[i] :: fName.drop (i + 1) := List.drop_eq_getElem_cons hi
    have hds : s.drop i = s[i] :: s.drop (i + 1) := List.drop_eq_getElem_cons his
    have hg : fName.get? i = some fName[i] := by simp [List.get?_eq_getElem?, hi]
    rw [saveParamsLoop, hg]
    simp only
    rw [hd, hds, List.zipWith_cons_cons]
    by_cases hc : fName[i] = pk
    · rw [if_pos hc, if_pos hc, ih (i + 1) s (by omega) hs, take_succ_of_lt s i his]
      simp only [List.append_assoc, List.singleton_append]
    · rw [if_neg hc, if_neg hc, ih (i + 1) (s.set i "?") (by omega) (by simpa using hs),
        take_succ_set s i _ his, drop_succ_set]
      simp

/-- The slice `getSaveFieldParams` returns, entry by entry: the entry of a name equal to the
primary-key name stays `""`, every other entry is `"?"`. -/
theorem getSaveFieldParams_eq (ti : Rec) :
    getSaveFieldParams ti =
      (GetFieldMapper ti).1.map (fun n => if n = ti.GetPrimaryKeyName then "" else "?") := by
  unfold getSaveFieldParams
  simp only
  rw [saveParamsLoop_eq _ _ _ 0 _ (by simp) (by simp)]
  simp only [List.take_zero, List.drop_zero, List.nil_append]
  generalize (GetFieldMapper ti).1 = l
  induction l with
  | nil => rfl
  | cons a l ih => simp [List.replicate_succ, ih]

/-- The slice of `getSaveFieldParams` always has one entry per value of `GetFieldMapper`. -/
theorem getSaveFieldParams_length (ti : Rec) :
    (getSaveFieldParams ti).length = (GetFieldMapper ti).2.length := by
  rw [getSaveFieldParams_eq, List.length_map, GetFieldMapper_length]

/-- When no mapped name equals the primary-key name, every entry of the slice is `"?"`. -/
theorem getSaveFieldParams_all_marks (ti : Rec)
    (hpk : ∀ n ∈ (GetFieldMapper ti).1, n ≠ ti.GetPrimaryKeyName) :
    getSaveFieldParams ti = List.replicate (GetFieldMapper ti).2.length "?" := by
  rw [getSaveFieldParams_eq, ← GetFieldMapper_length]
  generalize (GetFieldMapper ti).1 = l at hpk
  induction l with
  | nil => rfl
  | cons a l ih =>
    have ha : a ≠ ti.GetPrimaryKeyName := hpk a (List.mem_cons_self a l)
    have hl := ih (fun n hn => hpk n (List.mem_cons_of_mem a hn))
    simp [List.replicate_succ, ha, hl]

theorem updateParamsLoop_eq (fName : List String) (pk : String) (fuel : Nat) :
    ∀ (i : Nat) (s : List String), i + fuel = fName.length → s.length = fName.length →
    updateParamsLoop fName pk fuel i s =
      s.take i ++ List.zipWith (fun n old => if n = pk then old else n ++ " = ?")
        (fName.drop i) (s.drop i) := by
  induction fuel with
  | zero =>
    intro i s h hs
    have h1 : fName.drop i = [] := List.drop_eq_nil_of_le (by omega)
    have h2 : s.take i = s := List.take_of_length_le (by omega)
    simp [updateParamsLoop, h1, h2]
  | succ fuel ih =>
    intro i s h hs
    have hi : i < fName.length := by omega
    have his : i < s.length := by omega
    have hd : fName.drop i = fName[i] :: fName.drop (i + 1) := List.drop_eq_getElem_cons hi
    have hds : s.drop i = s[i] :: s.drop (i + 1) := List.drop_eq_getElem_cons his
    have hg : fName.get? i = some fName[i] := by simp [List.get?_eq_getElem?, hi]
    rw [updateParamsLoop, hg]
    simp only
    rw [hd, hds, List.zipWith_cons_cons]
    by_cases hc : fName[i] = pk
    · rw [if_pos hc, if_pos hc, ih (i + 1) s (by omega) hs, take_succ_of_lt s i his]
      simp only [List.append_assoc, List.singleton_append]
    · rw [if_neg hc, if_neg hc, ih (i + 1) (s.set i _) (by omega) (by simpa using hs),
        take_succ_set s i _ his, drop_succ_set]
      simp

theorem getUpdateFieldParams_eq (ti : Rec) :
    getUpdateFieldParams ti =
      (GetFieldMapper ti).1.map
        (fun n => if n = ti.GetPrimaryKeyName then "" else n ++ " = ?") := by
  unfold getUpdateFieldParams
  simp only
  rw [updateParamsLoop_eq _ _ _ 0 _ (by simp) (by simp)]
  simp only [List.take_zero, List.drop_zero, List.nil_append]
  generalize (GetFieldMapper ti).1 = l
  induction l with
  | nil => rfl
  | cons a l ih => simp [List.replicate_succ, ih]

theorem getUpdateFieldParams_of_no_key (ti : Rec)
    (hpk : ∀ n ∈ (GetFieldMapper ti).1, n ≠ ti.GetPrimaryKeyName) :
    getUpdateFieldParams ti = (GetFieldMapper ti).1.map (fun n => n ++ " = ?") := by
  rw [getUpdateFieldParams_eq]
  apply List.map_congr_left
  intro n hn
  simp [hpk n hn]

theorem genSaveQuery_ne_genUpdateQuery (ti : Rec) : genSaveQuery ti ≠ genUpdateQuery ti := by
  intro h
  have h1 := congrArg String.data h
  simp only [genSaveQuery, genUpdateQuery, String.data_append] at h1
  simp [List.append_assoc] at h1

/-! ## Helper lemmas: `executeSaveUpdateQuery` and `Save` by cases -/

theorem executeSaveUpdateQuery_exec_error (db : Conn) (query : String) (params : List Arg)
    (e : Error) (h : db.Exec query params = .error e) :
    executeSaveUpdateQuery db query params = ((0, some e), [Call.Exec query params]) := by
  simp [executeSaveUpdateQuery, h]

theorem executeSaveUpdateQuery_id_error (db : Conn) (query : String) (params : List Arg)
    (res : Result) (e : Error) (h : db.Exec query params = .ok res)
    (h2 : res.LastInsertId = .error e) :
    executeSaveUpdateQuery db query params =
      ((0, some e), [Call.Exec query params, Call.LastInsertId]) := by
  simp [executeSaveUpdateQuery, h, h2]

theorem executeSaveUpdateQuery_ok (db : Conn) (query : String) (params : List Arg)
    (res : Result) (lastID : Int) (h : db.Exec query params = .ok res)
    (h2 : res.LastInsertId = .ok lastID) :
    executeSaveUpdateQuery db query params =
      ((lastID, none), [Call.Exec query params, Call.LastInsertId]) := by
  simp [executeSaveUpdateQuery, h, h2]

/-- The result of `Save` on a record with `isNew` set: the insert branch. -/
theorem Save_of_isNew (db : Conn) (ti : Rec) (hn : ti.GetTableRecord.isNew = true) :
    Save db ti =
      match (executeSaveUpdateQuery db (genSaveQuery ti) (GetFieldMapper ti).2).1.2 with
      | some err =>
        { err := some err, ti := ti,
          calls := (executeSaveUpdateQuery db (genSaveQuery ti) (GetFieldMapper ti).2).2 }
      | none =>
        { err := none,
          ti := { ti with tableRecord :=
            { RecordID := (executeSaveUpdateQuery db (genSaveQuery ti) (GetFieldMapper ti).2).1.1,
              isNew := false, Builder := ti.GetTableRecord.Builder } },
          calls := (executeSaveUpdateQuery db (genSaveQuery ti) (GetFieldMapper ti).2).2 } := by
  unfold Save
  simp only [hn, ↓reduceIte]
  rfl

/-- The result of `Save` on a record with `isNew` cleared: the update branch. -/
theorem Save_of_not_isNew (db : Conn) (ti : Rec) (hn : ti.GetTableRecord.isNew = false) :
    Save db ti =
      { err := (executeSaveUpdateQuery db (genUpdateQuery ti)
          ((GetFieldMapper ti).2 ++ [Arg.int64 ti.GetTableRecord.RecordID])).1.2,
        ti := ti,
        calls := (executeSaveUpdateQuery db (genUpdateQuery ti)
          ((GetFieldMapper ti).2 ++ [Arg.int64 ti.GetTableRecord.RecordID])).2 } := by
  unfold Save
  simp only [hn, Bool.false_eq_true, ↓reduceIte]
  split <;> simp_all

/-- The statement and parameters `Save` hands to `executeSaveUpdateQuery`, and what it
returns as error. -/
theorem Save_calls_err (db : Conn) (ti : Rec) :
    (Save db ti).calls =
      (executeSaveUpdateQuery db
        (if ti.GetTableRecord.isNew = true then genSaveQuery ti else genUpdateQuery ti)
        (if ti.GetTableRecord.isNew = true then (GetFieldMapper ti).2
         else (GetFieldMapper ti).2 ++ [Arg.int64 ti.GetTableRecord.RecordID])).2 ∧
    (Save db ti).err =
      (executeSaveUpdateQuery db
        (if ti.GetTableRecord.isNew = true then genSaveQuery ti else genUpdateQuery ti)
        (if ti.GetTableRecord.isNew = true then (GetFieldMapper ti).2
         else (GetFieldMapper ti).2 ++ [Arg.int64 ti.GetTableRecord.RecordID])).1.2 := by
  cases hn : ti.GetTableRecord.isNew
  · rw [Save_of_not_isNew db ti hn]
    simp
  · rw [Save_of_isNew db ti hn]
    simp only [↓reduceIte]
    split <;> simp_all

theorem execQueries_executeSaveUpdateQuery (db : Conn) (query : String) (params : List Arg) :
    execQueries (executeSaveUpdateQuery db query params).2 = [query] ∧
    execParams (executeSaveUpdateQuery db query params).2 = [params] := by
  unfold executeSaveUpdateQuery
  split
  · simp [execQueries, execParams]
  · split <;> simp [execQueries, execParams]

theorem Save_unchanged_of_error (db : Conn) (ti : Rec) (h : (Save db ti).err ≠ none) :
    (Save db ti).ti = ti := by
  cases hn : ti.GetTableRecord.isNew
  · rw [Save_of_not_isNew db ti hn]
  · rw [Save_of_isNew db ti hn] at h ⊢
    split
    · rfl
    · rename_i hnone
      simp [hnone] at h

theorem Save_unchanged_of_update (db : Conn) (ti : Rec) (hn : ti.GetTableRecord.isNew = false) :
    (Save db ti).ti = ti := by
  rw [Save_of_not_isNew db ti hn]

end Record

namespace Record

/-! ## Save: which statement is executed -/

/-- C1 (the code at the failing input): on the fresh record `newUser`, whose `isNew` flag is
true, `Save` executes the INSERT of `genSaveQuery`, and on `storedUser`, whose `isNew` flag is
false, the UPDATE of `genUpdateQuery`; so at `newUser` it is not the case that the INSERT is
executed exactly when `isNew` is false and the UPDATE exactly when `isNew` is true, which is
what the doc comment of `Save` and the claim say. -/
theorem Save_insert_iff_not_isNew_fails :
    newUser.GetTableRecord.isNew = true ∧
    (Save okConn newUser).calls =
      [Call.Exec "INSERT INTO users (name, email) VALUES ( ?, ? )"
        [Arg.fieldAddr 1, Arg.fieldAddr 2], Call.LastInsertId] ∧
    storedUser.GetTableRecord.isNew = false ∧
    (Save okConn storedUser).calls =
      [Call.Exec "UPDATE  users SET name = ?, email = ? WHERE id = ?"
        [Arg.fieldAddr 1, Arg.fieldAddr 2, Arg.int64 7], Call.LastInsertId] ∧
    ¬ ((execQueries (Save okConn newUser).calls = [genSaveQuery newUser] ↔
          newUser.GetTableRecord.isNew = false) ∧
       (execQueries (Save okConn newUser).calls = [genUpdateQuery newUser] ↔
          newUser.GetTableRecord.isNew = true)) := by
  decide

/-- What `Save` executes, for every record and every driver: the one statement is the INSERT
built by `genSaveQuery` exactly when `isNew` is true, and the UPDATE built by
`genUpdateQuery` exactly when `isNew` is false. -/
theorem Save_statement_follows_isNew (db : Conn) (ti : Rec) :
    (execQueries (Save db ti).calls = [genSaveQuery ti] ↔ ti.GetTableRecord.isNew = true) ∧
    (execQueries (Save db ti).calls = [genUpdateQuery ti] ↔ ti.GetTableRecord.isNew = false) := by
  rw [(Save_calls_err db ti).1, (execQueries_executeSaveUpdateQuery db _ _).1]
  have hne := genSaveQuery_ne_genUpdateQuery ti
  cases hn : ti.GetTableRecord.isNew
  · simp [hne, Ne.symm hne]
  · simp [hne, Ne.symm hne]

/-! ## Save: placeholders of the insert -/

/-- C2 (the code at the failing input): for the record `keyedUser`, whose struct maps the
primary-key column `id`, `getSaveFieldParams` returns `["", "?"]`, so the INSERT has one
placeholder, while `GetFieldMapper` returns two values and `Save` passes both to `Exec`. -/
theorem getSaveFieldParams_key_field_unmarked :
    getSaveFieldParams keyedUser = ["", "?"] ∧
    genSaveQuery keyedUser = "INSERT INTO users (id, name) VALUES ( , ? )" ∧
    (GetFieldMapper keyedUser).2 = [Arg.fieldAddr 0, Arg.fieldAddr 1] ∧
    (Save okConn keyedUser).calls =
      [Call.Exec "INSERT INTO users (id, name) VALUES ( , ? )" [Arg.fieldAddr 0, Arg.fieldAddr 1],
       Call.LastInsertId] := by
  decide

/-! ## Save: errors of the driver -/

/-- C3: for every record and driver, `Save` makes exactly one `Exec` call (statement and
parameters of its branch); it returns nil exactly when `Exec` and then `LastInsertId` succeed;
when `Exec` fails it returns that error and `LastInsertId` is not called; when `Exec` succeeds
and `LastInsertId` fails it returns that error. Both branches are covered: the statement is
the INSERT when `isNew` is true and the UPDATE otherwise. -/
theorem Save_error_passthrough (db : Conn) (ti : Rec) :
    execQueries (Save db ti).calls =
      [if ti.GetTableRecord.isNew = true then genSaveQuery ti else genUpdateQuery ti] ∧
    execParams (Save db ti).calls =
      [if ti.GetTableRecord.isNew = true then (GetFieldMapper ti).2
       else (GetFieldMapper ti).2 ++ [Arg.int64 ti.GetTableRecord.RecordID]] ∧
    ((Save db ti).err = none ↔
      ∃ res lastID,
        db.Exec (if ti.GetTableRecord.isNew = true then genSaveQuery ti else genUpdateQuery ti)
          (if ti.GetTableRecord.isNew = true then (GetFieldMapper ti).2
           else (GetFieldMapper ti).2 ++ [Arg.int64 ti.GetTableRecord.RecordID]) = .ok res ∧
        res.LastInsertId = .ok lastID) ∧
    (∀ e : Error,
      db.Exec (if ti.GetTableRecord.isNew = true then genSaveQuery ti else genUpdateQuery ti)
          (if ti.GetTableRecord.isNew = true then (GetFieldMapper ti).2
           else (GetFieldMapper ti).2 ++ [Arg.int64 ti.GetTableRecord.RecordID]) = .error e →
      (Save db ti).err = some e ∧ Call.LastInsertId ∉ (Save db ti).calls) ∧
    (∀ (res : Result) (e : Error),
      db.Exec (if ti.GetTableRecord.isNew = true then genSaveQuery ti else genUpdateQuery ti)
          (if ti.GetTableRecord.isNew = true then (GetFieldMapper ti).2
           else (GetFieldMapper ti).2 ++ [Arg.int64 ti.GetTableRecord.RecordID]) = .ok res →
      res.LastInsertId = .error e → (Save db ti).err = some e) := by
  obtain ⟨hc, he⟩ := Save_calls_err db ti
  rw [hc, he]
  generalize (if ti.GetTableRecord.isNew = true then genSaveQuery ti else genUpdateQuery ti) = q
  generalize (if ti.GetTableRecord.isNew = true then (GetFieldMapper ti).2
       else (GetFieldMapper ti).2 ++ [Arg.int64 ti.GetTableRecord.RecordID]) = p
  refine ⟨(execQueries_executeSaveUpdateQuery db q p).1,
    (execQueries_executeSaveUpdateQuery db q p).2, ?_, ?_, ?_⟩
  · cases hx : db.Exec q p with
    | error e => simp [executeSaveUpdateQuery_exec_error db q p e hx]
    | ok res =>
      cases hl : res.LastInsertId with
      | error e => simp [executeSaveUpdateQuery_id_error db q p res e hx hl, hl]
      | ok lastID => simp [executeSaveUpdateQuery_ok db q p res lastID hx hl, hl]
  · intro e hx
    simp [executeSaveUpdateQuery_exec_error db q p e hx]
  · intro res e hx hl
    simp [executeSaveUpdateQuery_id_error db q p res e hx hl]

/-- C3 witness: both error cases and the success case occur, on the insert branch and on the
update branch. -/
theorem Save_error_passthrough_witness :
    ((Save downConn newUser).err = some ⟨"connection refused"⟩ ∧
      Call.LastInsertId ∉ (Save downConn newUser).calls) ∧
    (Save noIdConn storedUser).err = some ⟨"LastInsertId is not supported"⟩ :=
  ⟨(Save_error_passthrough downConn newUser).2.2.2.1 ⟨"connection refused"⟩ rfl,
   (Save_error_passthrough noIdConn storedUser).2.2.2.2
     { LastInsertId := .error ⟨"LastInsertId is not supported"⟩ }
     ⟨"LastInsertId is not supported"⟩ rfl rfl⟩

/-! ## Save: the inserted id -/

/-- C4: when `Exec` and `LastInsertId` succeed, `executeSaveUpdateQuery` returns the id reported
by `LastInsertId` with a nil error; and whenever `Save` returns nil on a record whose `isNew`
is true, the driver reported an id for the INSERT, `RecordID` is that id afterwards and
`isNew` is false. -/
theorem Save_insert_records_id (db : Conn) (ti : Rec) :
    (∀ (query : String) (params : List Arg) (res : Result) (lastID : Int),
      db.Exec query params = .ok res → res.LastInsertId = .ok lastID →
      (executeSaveUpdateQuery db query params).1 = (lastID, none)) ∧
    (ti.GetTableRecord.isNew = true → (Save db ti).err = none →
      ∃ res lastID,
        db.Exec (genSaveQuery ti) (GetFieldMapper ti).2 = .ok res ∧
        res.LastInsertId = .ok lastID ∧
        (Save db ti).ti.GetTableRecord.RecordID = lastID ∧
        (Save db ti).ti.GetTableRecord.isNew = false) := by
  constructor
  · intro query params res lastID hx hl
    rw [executeSaveUpdateQuery_ok db query params res lastID hx hl]
  · intro hn herr
    rw [Save_of_isNew db ti hn] at herr ⊢
    cases hx : db.Exec (genSaveQuery ti) (GetFieldMapper ti).2 with
    | error e =>
      rw [executeSaveUpdateQuery_exec_error db _ _ e hx] at herr
      simp at herr
    | ok res =>
      cases hl : res.LastInsertId with
      | error e =>
        rw [executeSaveUpdateQuery_id_error db _ _ res e hx hl] at herr
        simp at herr
      | ok lastID =>
        refine ⟨res, lastID, rfl, hl, ?_, ?_⟩
        · rw [executeSaveUpdateQuery_ok db _ _ res lastID hx hl]
          rfl
        · rw [executeSaveUpdateQuery_ok db _ _ res lastID hx hl]
          rfl

/-- C4 witness: on a driver that reports id 42, `executeSaveUpdateQuery` returns `(42, nil)`,
and saving the fresh record `newUser` leaves `RecordID` 42 and `isNew` false. -/
theorem Save_insert_records_id_witness :
    (executeSaveUpdateQuery okConn "INSERT INTO users (name) VALUES ( ? )" [Arg.fieldAddr 1]).1 =
      (42, none) ∧
    newUser.GetTableRecord.isNew = true ∧ (Save okConn newUser).err = none ∧
    ∃ res lastID,
      okConn.Exec (genSaveQuery newUser) (GetFieldMapper newUser).2 = .ok res ∧
      res.LastInsertId = .ok lastID ∧
      (Save okConn newUser).ti.GetTableRecord.RecordID = lastID ∧
      (Save okConn newUser).ti.GetTableRecord.isNew = false :=
  ⟨(Save_insert_records_id okConn newUser).1 "INSERT INTO users (name) VALUES ( ? )"
      [Arg.fieldAddr 1] { LastInsertId := .ok 42 } 42 rfl rfl,
   by decide, by decide, (Save_insert_records_id okConn newUser).2 (by decide) (by decide)⟩

/-! ## Save: the bookkeeping state -/

/-- C9: if `Save` returns an error, the record (so `RecordID` and `isNew`) is what it was
before the call, and after a failed insert the next `Save`, on any driver, executes the INSERT
again; if `Save` succeeds on a record whose `isNew` is false, `RecordID` and `isNew` are
unchanged as well. -/
theorem Save_bookkeeping_atomic (db db2 : Conn) (ti : Rec) :
    ((Save db ti).err ≠ none →
      (Save db ti).ti = ti ∧
      (Save db ti).ti.GetTableRecord.RecordID = ti.GetTableRecord.RecordID ∧
      (Save db ti).ti.GetTableRecord.isNew = ti.GetTableRecord.isNew) ∧
    ((Save db ti).err ≠ none → ti.GetTableRecord.isNew = true →
      (Save db ti).ti.GetTableRecord.isNew = true ∧
      execQueries (Save db2 (Save db ti).ti).calls = [genSaveQuery ti]) ∧
    ((Save db ti).err = none → ti.GetTableRecord.isNew = false →
      (Save db ti).ti.GetTableRecord.RecordID = ti.GetTableRecord.RecordID ∧
      (Save db ti).ti.GetTableRecord.isNew = ti.GetTableRecord.isNew) := by
  refine ⟨?_, ?_, ?_⟩
  · intro h
    have := Save_unchanged_of_error db ti h
    simp [this]
  · intro h hn
    rw [Save_unchanged_of_error db ti h]
    refine ⟨hn, ?_⟩
    rw [(Save_calls_err db2 ti).1, (execQueries_executeSaveUpdateQuery db2 _ _).1]
    simp [hn]
  · intro _ hn
    rw [Save_unchanged_of_update db ti hn]
    exact ⟨rfl, rfl⟩

/-- C9 witness: a failed insert of `newUser` leaves it as it was and the retry inserts again;
a successful update of `storedUser` leaves `RecordID` 7 and `isNew` false. -/
theorem Save_bookkeeping_atomic_witness :
    ((Save downConn newUser).err ≠ none ∧ (Save downConn newUser).ti = newUser) ∧
    (newUser.GetTableRecord.isNew = true ∧
      execQueries (Save okConn (Save downConn newUser).ti).calls = [genSaveQuery newUser]) ∧
    ((Save okConn storedUser).err = none ∧ storedUser.GetTableRecord.isNew = false ∧
      (Save okConn storedUser).ti.GetTableRecord.RecordID = 7) :=
  ⟨⟨by decide, ((Save_bookkeeping_atomic downConn okConn newUser).1 (by decide)).1⟩,
   ⟨by decide, ((Save_bookkeeping_atomic downConn okConn newUser).2.1 (by decide) (by decide)).2⟩,
   ⟨by decide, by decide,
     ((Save_bookkeeping_atomic okConn okConn storedUser).2.2 (by decide) (by decide)).1⟩⟩

end Record

namespace Record

/-! ## Helper lemmas: the loaders -/

theorem scanDests_append (a b : List Call) : scanDests (a ++ b) = scanDests a ++ scanDests b := by
  induction a with
  | nil => rfl
  | cons c a ih => cases c <;> simp [scanDests, ih]

theorem scanDests_execQueryLoop (db : Conn) (nti : Rec) (rows : List (List Value)) :
    ∀ (tiList : List Rec) (calls : List Call),
    ∃ k, k ≤ rows.length ∧ (rows ≠ [] → 0 < k) ∧
      ((execQueryLoop db nti rows tiList calls).1.1 = none → k = rows.length) ∧
      scanDests (execQueryLoop db nti rows tiList calls).2 =
        scanDests calls ++ List.replicate k (scanParams nti) := by
  induction rows with
  | nil =>
    intro tiList calls
    exact ⟨0, by simp, by simp, by simp, by simp [execQueryLoop, scanDests_append, scanDests]⟩
  | cons row rest ih =>
    intro tiList calls
    rcases hs : rowsScan db row (scanParams nti) nti with ⟨nti1, _ | e⟩
    · obtain ⟨k, hk, _, hall, hd⟩ :=
        ih (tiList ++ [{ nti1 with tableRecord := nti1.GetTableRecord.SetIsNew false }])
          (calls ++ [Call.Next, Call.Scan (scanParams nti)])
      refine ⟨k + 1, by simpa using hk, by simp, ?_, ?_⟩
      · intro hnone
        simp only [execQueryLoop, hs] at hnone
        simp [hall hnone]
      · simp only [execQueryLoop, hs]
        rw [hd, scanDests_append]
        simp [scanDests, List.replicate_succ]
    · refine ⟨1, by simp, by simp, ?_, ?_⟩
      · simp [execQueryLoop, hs]
      · simp [execQueryLoop, hs, scanDests_append, scanDests]

/-- When every row scans without error, the loop of `ExecQuery` appends one loaded instance
per row, in order. -/
theorem execQueryLoop_of_all_ok (db : Conn) (nti : Rec) (rows : List (List Value)) :
    ∀ (tiList : List Rec) (calls : List Call),
    (∀ row ∈ rows, (rowsScan db row (scanParams nti) nti).2 = none) →
    (execQueryLoop db nti rows tiList calls).1 =
      (none, tiList ++ rows.map (fun row =>
        { (rowsScan db row (scanParams nti) nti).1 with
          tableRecord := (rowsScan db row (scanParams nti) nti).1.GetTableRecord.SetIsNew false })) := by
  induction rows with
  | nil =>
    intro tiList calls _
    simp [execQueryLoop]
  | cons row rest ih =>
    intro tiList calls hok
    have h1 := hok row (List.mem_cons_self row rest)
    rcases hs : rowsScan db row (scanParams nti) nti with ⟨nti1, _ | e⟩
    · simp only [execQueryLoop, hs]
      rw [ih _ _ (fun r hr => hok r (List.mem_cons_of_mem row hr))]
      simp [hs]
    · rw [hs] at h1
      cases h1

/-! ## Helper lemmas: `rows.Scan` stores by position -/

theorem Join_eq_intercalate_go (sep : String) : ∀ (l : List String) (acc a : String),
    String.intercalate.go (acc ++ a) sep l = acc ++ Join (a :: l) sep := by
  intro l
  induction l with
  | nil => intro acc a; rfl
  | cons b l ih =>
    intro acc a
    have h := ih (acc ++ a ++ sep) b
    simp only [String.intercalate.go, Join, String.append_assoc] at h ⊢
    exact h

theorem Join_eq_intercalate (l : List String) (sep : String) :
    Join l sep = String.intercalate sep l := by
  cases l with
  | nil => rfl
  | cons a l =>
    have h := Join_eq_intercalate_go sep l "" a
    simp only [String.empty_append] at h
    exact h.symm

/-- The loop of `rows.Scan` over field destinations with increasing indices: every column is
converted and stored in its own field, nothing else changes. -/
theorem assignAll_fields (db : Conn) : ∀ (idxs : List Nat) (cols : List Value) (t : Rec),
    cols.length = idxs.length → List.Pairwise (fun a b => a < b) idxs →
    (∀ i ∈ idxs, i < t.fields.length) →
    (∀ p ∈ List.zip idxs cols, ∃ w, db.ToField p.1 p.2 = .ok w) →
    ∃ t1, assignAll db cols (idxs.map Arg.fieldAddr) t = (t1, none) ∧
      t1.tableRecord = t.tableRecord ∧ t1.primaryKeyName = t.primaryKeyName ∧
      t1.tableName = t.tableName ∧ t1.fields.length = t.fields.length ∧
      (∀ j, j ∉ idxs → t1.fields.get? j = t.fields.get? j) ∧
      (∀ p ∈ List.zip idxs cols, ∀ w, db.ToField p.1 p.2 = .ok w →
        t1.fields.get? p.1 = (t.fields.get? p.1).map (fun f => { f with Val := w })) := by
  intro idxs
  induction idxs with
  | nil =>
    intro cols t hlen _ _ _
    have : cols = [] := List.length_eq_zero.mp (by simpa using hlen)
    subst this
    exact ⟨t, rfl, rfl, rfl, rfl, rfl, fun _ _ => rfl, by simp⟩
  | cons i is ih =>
    intro cols t hlen hpw hrange hconv
    cases cols with
    | nil => simp at hlen
    | cons v vs =>
      obtain ⟨w0, hw0⟩ := hconv (i, v) (by simp)
      have hi : i < t.fields.length := hrange i (List.mem_cons_self i is)
      have hlt : ∀ j ∈ is, i < j := (List.pairwise_cons.mp hpw).1
      have hstep : assignDest db t (Arg.fieldAddr i) v =
          ({ t with fields := t.fields.modify (fun f => { f with Val := w0 }) i }, none) := by
        simp [assignDest, hi, hw0]
      obtain ⟨t1, heq, htr, hpk, htn, hl, hother, hmine⟩ :=
        ih vs { t with fields := t.fields.modify (fun f => { f with Val := w0 }) i }
          (by simpa using hlen) (List.pairwise_cons.mp hpw).2
          (fun j hj => by simpa using hrange j (List.mem_cons_of_mem i hj))
          (fun p hp => hconv p (by simp [hp]))
      refine ⟨t1, ?_, htr, hpk, htn, by simpa using hl, ?_, ?_⟩
      · simp only [List.map_cons, assignAll, hstep]
        exact heq
      · intro j hj
        have hji : i ≠ j := fun h => hj (by simp [h])
        have hjs : j ∉ is := fun h => hj (List.mem_cons_of_mem i h)
        rw [hother j hjs]
        simp [List.get?_eq_getElem?, List.getElem?_modify_ne _ _ hji]
      · intro p hp w hw
        simp only [List.zip_cons_cons, List.mem_cons] at hp
        rcases hp with hp | hp
        · subst hp
          have hww : w = w0 := by
            simp only at hw
            rw [hw0] at hw
            cases hw
            rfl
          subst hww
          have hnot : i ∉ is := fun h => Nat.lt_irrefl i (hlt i h)
          rw [hother i hnot]
          simp [List.get?_eq_getElem?]
        · have hin : p.1 ∈ is := (List.of_mem_zip hp).1
          have hne : i ≠ p.1 := Nat.ne_of_lt (hlt p.1 hin)
          rw [hmine p hp w hw]
          simp [List.get?_eq_getElem?, List.getElem?_modify_ne _ _ hne]

/-- Go `rows.Scan` on the destinations the loaders build for a record `r`, given a row of
n+1 columns that convert: the first column goes into `RecordID`, column k+1 into the k-th
mapped field, and nothing else changes. -/
theorem rowsScan_scanParams (db : Conn) (r : Rec) (c0 : Value) (cols : List Value) (v0 : Int)
    (hlen : cols.length = (GetFieldMapper r).1.length) (h0 : db.ToInt64 c0 = .ok v0)
    (hconv : ∀ p ∈ List.zip (mappedFields r) cols, ∃ w, db.ToField p.1.1 p.2 = .ok w) :
    ∃ r1, rowsScan db (c0 :: cols) (scanParams r) r = (r1, none) ∧
      r1.tableRecord = { r.tableRecord with RecordID := v0 } ∧
      r1.primaryKeyName = r.primaryKeyName ∧ r1.tableName = r.tableName ∧
      r1.fields.length = r.fields.length ∧
      (∀ j, (∀ p ∈ mappedFields r, p.1 ≠ j) → r1.fields.get? j = r.fields.get? j) ∧
      (∀ p ∈ List.zip (mappedFields r) cols, ∀ w, db.ToField p.1.1 p.2 = .ok w →
        r1.fields.get? p.1.1 = some { p.1.2 with Val := w }) := by
  have hvals : (GetFieldMapper r).2 = ((mappedFields r).map Prod.fst).map Arg.fieldAddr := by
    rw [GetFieldMapper_eq_spec]
    simp [GetFieldMapperSpec]
  have hn : (GetFieldMapper r).1.length = (mappedFields r).length := by
    rw [GetFieldMapper_eq_spec]
    simp [GetFieldMapperSpec]
  have hzip : List.zip ((mappedFields r).map Prod.fst) cols =
      (List.zip (mappedFields r) cols).map (fun p => (p.1.1, p.2)) := by
    rw [List.zip_map_left]
    rfl
  obtain ⟨r1, heq, htr, hpk, htn, hl, hother, hmine⟩ :=
    assignAll_fields db ((mappedFields r).map Prod.fst) cols
      { r with tableRecord := { r.tableRecord with RecordID := v0 } }
      (by simp [hlen, hn]) (mappedFields_index_increasing r)
      (by
        intro i hi
        simp only [List.mem_map] at hi
        obtain ⟨⟨j, f⟩, hjf, hij⟩ := hi
        simp only at hij
        subst hij
        have := ((mem_mappedFields r j f).1 hjf).1
        rw [List.get?_eq_getElem?] at this
        exact (List.getElem?_eq_some_iff.mp this).1)
      (by
        intro p hp
        rw [hzip, List.mem_map] at hp
        obtain ⟨q, hq, hqp⟩ := hp
        subst hqp
        exact hconv q hq)
  refine ⟨r1, ?_, htr, hpk, htn, hl, ?_, ?_⟩
  · have hlen2 : (c0 :: cols).length = (scanParams r).length := by
      simp [scanParams, hlen, GetFieldMapper_length]
    simp only [rowsScan, hlen2, ne_eq, not_true_eq_false, ↓reduceIte]
    simp only [scanParams, List.singleton_append, assignAll, assignDest, h0, hvals]
    exact heq
  · intro j hj
    apply hother j
    intro hmem
    simp only [List.mem_map] at hmem
    obtain ⟨p, hp, hpj⟩ := hmem
    exact hj p hp hpj
  · intro p hp w hw
    have hmem : (p.1.1, p.2) ∈ List.zip ((mappedFields r).map Prod.fst) cols := by
      rw [hzip, List.mem_map]
      exact ⟨p, hp, rfl⟩
    rw [hmine (p.1.1, p.2) hmem w hw]
    have hpm : (p.1.1, p.1.2) ∈ mappedFields r := (List.of_mem_zip hp).1
    have := ((mem_mappedFields r p.1.1 p.1.2).1 hpm).1
    simp only at this ⊢
    rw [this]
    rfl

theorem fieldMapperLoop_congr (a b : Rec)
    (h : ∀ i, (a.fields.get? i).map (fun f => (f.Name, f.Tag, f.CanInterface, f.CanSet)) =
      (b.fields.get? i).map (fun f => (f.Name, f.Tag, f.CanInterface, f.CanSet)))
    (fuel : Nat) : ∀ (i : Nat) (names : List String) (vals : List Arg),
    fieldMapperLoop a fuel i names vals = fieldMapperLoop b fuel i names vals := by
  induction fuel with
  | zero => intro i names vals; rfl
  | succ fuel ih =>
    intro i names vals
    have hi := h i
    rw [fieldMapperLoop, fieldMapperLoop]
    cases ha : a.fields.get? i with
    | none =>
      cases hb : b.fields.get? i with
      | none => rfl
      | some g =>
        rw [ha, hb] at hi
        simp at hi
    | some f =>
      cases hb : b.fields.get? i with
      | none =>
        rw [ha, hb] at hi
        simp at hi
      | some g =>
        rw [ha, hb] at hi
        simp only [Option.map_some', Option.some.injEq, Prod.mk.injEq] at hi
        obtain ⟨_, ht, hc, hs⟩ := hi
        simp only [ht, hc, hs, ih]

theorem GetFieldMapper_congr (a b : Rec) (h : sameStruct a b) :
    GetFieldMapper a = GetFieldMapper b := by
  unfold sameStruct at h
  have hlen : a.fields.length = b.fields.length := by
    simpa using congrArg List.length h
  have hget : ∀ i, (a.fields.get? i).map (fun f => (f.Name, f.Tag, f.CanInterface, f.CanSet)) =
      (b.fields.get? i).map (fun f => (f.Name, f.Tag, f.CanInterface, f.CanSet)) := by
    intro i
    simp only [List.get?_eq_getElem?, ← List.getElem?_map, h]
  unfold GetFieldMapper Rec.NumField
  rw [hlen]
  exact fieldMapperLoop_congr a b hget _ 0 [] []

theorem LoadByID_prepares (db : Conn) (ti : Rec) (id : Int) :
    prepareQueries (LoadByID db ti id).calls = [loadByIDQuery ti] := by
  unfold LoadByID
  simp only
  split
  · simp [prepareQueries]
  · split
    · simp [prepareQueries]
    · split
      · simp [prepareQueries]
      · split <;> simp [prepareQueries]

theorem LoadByID_scans (db : Conn) (ti : Rec) (id : Int) :
    ∀ dest ∈ scanDests (LoadByID db ti id).calls, dest = scanParams ti := by
  unfold LoadByID
  simp only
  split
  · simp [scanDests]
  · split
    · simp [scanDests]
    · split
      · simp [scanDests]
      · split <;> simp [scanDests]

theorem LoadByID_scans_row (db : Conn) (ti : Rec) (id : Int) (stmt : Stmt) (row : List Value)
    (rows : List (List Value)) (hp : db.Prepare (loadByIDQuery ti) = .ok stmt)
    (hq : stmt.Query [Arg.int64 id] = .ok (row :: rows)) :
    scanDests (LoadByID db ti id).calls = [scanParams ti] := by
  unfold LoadByID
  simp only [hp, hq]
  split <;> simp [scanDests]

/-- What `LoadByID` returns when a row is found: the error of `rows.Scan`, and the record as
`rows.Scan` left it, with `isNew` cleared when the scan succeeded. -/
theorem LoadByID_of_row (db : Conn) (ti : Rec) (id : Int) (stmt : Stmt) (row : List Value)
    (rows : List (List Value)) (hp : db.Prepare (loadByIDQuery ti) = .ok stmt)
    (hq : stmt.Query [Arg.int64 id] = .ok (row :: rows)) :
    (LoadByID db ti id).err = (rowsScan db row (scanParams ti) ti).2 ∧
    ((rowsScan db row (scanParams ti) ti).2 = none →
      (LoadByID db ti id).ti =
        { (rowsScan db row (scanParams ti) ti).1 with
          tableRecord := (rowsScan db row (scanParams ti) ti).1.GetTableRecord.SetIsNew false }) := by
  unfold LoadByID
  simp only [hp, hq]
  rcases hs : rowsScan db row (scanParams ti) ti with ⟨ti1, _ | e⟩
  · simp
  · simp

theorem ExecQuery_prepares (BuildQuery : Builder → String → String)
    (ResetStmt : Builder → Builder) (db : Conn) (nti ti : Rec) :
    prepareQueries (ExecQuery BuildQuery ResetStmt db nti ti).calls =
      [BuildQuery ti.GetTableRecord.Builder ti.GetTableName] := by
  have happ : ∀ a b : List Call, prepareQueries (a ++ b) = prepareQueries a ++ prepareQueries b := by
    intro a b
    induction a with
    | nil => rfl
    | cons c a ih => cases c <;> simp [prepareQueries, ih]
  have hloop : ∀ (rows : List (List Value)) (tiList : List Rec) (calls : List Call),
      prepareQueries (execQueryLoop db nti rows tiList calls).2 = prepareQueries calls := by
    intro rows
    induction rows with
    | nil => intro tiList calls; simp [execQueryLoop, happ, prepareQueries]
    | cons row rest ih =>
      intro tiList calls
      rcases hs : rowsScan db row (scanParams nti) nti with ⟨nti1, _ | e⟩
      · simp only [execQueryLoop, hs]
        rw [ih]
        simp [happ, prepareQueries]
      · simp [execQueryLoop, hs, happ, prepareQueries]
  cases hp : db.Prepare (BuildQuery ti.GetTableRecord.Builder ti.GetTableName) with
  | error e => simp [ExecQuery, TableRecord.Query, hp, prepareQueries]
  | ok stmt =>
    cases hq : stmt.Query ti.GetTableRecord.Builder.Params with
    | error e => simp [ExecQuery, TableRecord.Query, hp, hq, prepareQueries]
    | ok rows =>
      simp only [ExecQuery, TableRecord.Query, hp, hq]
      split <;> simp [happ, hloop, prepareQueries]

/-- What `ExecQuery` returns when every row scans without error: one loaded instance per row,
in order. -/
theorem ExecQuery_of_all_ok (BuildQuery : Builder → String → String)
    (ResetStmt : Builder → Builder) (db : Conn) (nti ti : Rec) (stmt : Stmt)
    (rows : List (List Value))
    (hp : db.Prepare (BuildQuery ti.GetTableRecord.Builder ti.GetTableName) = .ok stmt)
    (hq : stmt.Query ti.GetTableRecord.Builder.Params = .ok rows)
    (hok : ∀ row ∈ rows, (rowsScan db row (scanParams nti) nti).2 = none) :
    (ExecQuery BuildQuery ResetStmt db nti ti).err = none ∧
    (ExecQuery BuildQuery ResetStmt db nti ti).list =
      rows.map (fun row =>
        { (rowsScan db row (scanParams nti) nti).1 with
          tableRecord := (rowsScan db row (scanParams nti) nti).1.GetTableRecord.SetIsNew false }) := by
  have h := execQueryLoop_of_all_ok db nti rows []
    ([Call.Prepare (BuildQuery ti.GetTableRecord.Builder ti.GetTableName)] ++
      [Call.Query ti.GetTableRecord.Builder.Params]) hok
  simp only [ExecQuery, TableRecord.Query, hp, hq]
  rw [Prod.ext_iff] at h
  simp only [List.nil_append] at h
  split
  · rename_i e he
    rw [h.1] at he
    cases he
  · exact ⟨rfl, h.2⟩

theorem ExecQuery_scans (BuildQuery : Builder → String → String) (ResetStmt : Builder → Builder)
    (db : Conn) (nti ti : Rec) :
    ∃ k, scanDests (ExecQuery BuildQuery ResetStmt db nti ti).calls =
        List.replicate k (scanParams nti) ∧
      (∀ stmt rows, db.Prepare (BuildQuery ti.GetTableRecord.Builder ti.GetTableName) = .ok stmt →
        stmt.Query ti.GetTableRecord.Builder.Params = .ok rows →
        k ≤ rows.length ∧ (rows ≠ [] → 0 < k) ∧
        ((ExecQuery BuildQuery ResetStmt db nti ti).err = none → k = rows.length)) := by
  cases hp : db.Prepare (BuildQuery ti.GetTableRecord.Builder ti.GetTableName) with
  | error e =>
    refine ⟨0, ?_, ?_⟩
    · simp [ExecQuery, TableRecord.Query, hp, scanDests]
    · intro stmt rows h1
      cases h1
  | ok stmt =>
    cases hq : stmt.Query ti.GetTableRecord.Builder.Params with
    | error e =>
      refine ⟨0, ?_, ?_⟩
      · simp [ExecQuery, TableRecord.Query, hp, hq, scanDests]
      · intro stmt2 rows h1 h2
        cases h1
        rw [hq] at h2
        cases h2
    | ok rows =>
      obtain ⟨k, hk, hpos, hall, hd⟩ := scanDests_execQueryLoop db nti rows []
        ([Call.Prepare (BuildQuery ti.GetTableRecord.Builder ti.GetTableName)] ++
         [Call.Query ti.GetTableRecord.Builder.Params])
      have hE : (ExecQuery BuildQuery ResetStmt db nti ti).calls =
          (execQueryLoop db nti rows []
            ([Call.Prepare (BuildQuery ti.GetTableRecord.Builder ti.GetTableName)] ++
             [Call.Query ti.GetTableRecord.Builder.Params])).2
            ++ [Call.RowsClose, Call.StmtClose] ∧
          (ExecQuery BuildQuery ResetStmt db nti ti).err =
          (execQueryLoop db nti rows []
            ([Call.Prepare (BuildQuery ti.GetTableRecord.Builder ti.GetTableName)] ++
             [Call.Query ti.GetTableRecord.Builder.Params])).1.1 := by
        simp only [ExecQuery, TableRecord.Query, hp, hq]
        split <;> simp_all
      refine ⟨k, ?_, ?_⟩
      · rw [hE.1, scanDests_append, hd]
        simp [scanDests]
      · intro stmt2 rows2 h1 h2
        cases h1
        rw [hq] at h2
        cases h2
        refine ⟨hk, hpos, ?_⟩
        rw [hE.2]
        exact hall

end Record

namespace Record

/-! ## Loading: columns and scan destinations -/

/-- C5: rows are scanned by position against the column list of `AllField`. For every record
`ti` with mapped names f1..fn: `AllField ti` is the primary-key name followed by f1..fn in
`GetFieldMapper` order joined by `","`, and fk is the `db` tag of the k-th mapped field;
`LoadByID` prepares the SELECT of exactly these columns, `ExecQuery` the statement of the
query builder; every `Scan` of `LoadByID` (one, whenever a row is returned) gets
`&RecordID` followed by the field addresses in `GetFieldMapper` order, every `Scan` of
`ExecQuery` (at least one when rows are returned, one per row when it succeeds) the same list
built for the instance `nti` of `ti.New()`, which equals that of `ti` when `nti` has the same
struct type; column list and destination list have length n+1 and pair the primary key with
`RecordID` and fk with the address of the field tagged fk. The effect: when `LoadByID` finds
a row of n+1 columns that convert, it returns nil, `RecordID` is the first column, `isNew`
is false, the k-th mapped field holds column k+1 and no other field changes; when every row
`ExecQuery` gets has n+1 columns that convert, it returns nil and one instance per row, in
order, each loaded the same way. -/
theorem scan_positions_follow_AllField (BuildQuery : Builder → String → String)
    (ResetStmt : Builder → Builder) (db : Conn) (ti nti : Rec) (id : Int) :
    AllField ti = String.intercalate "," (ti.GetPrimaryKeyName :: (GetFieldMapper ti).1) ∧
    (GetFieldMapper ti).1 = (mappedFields ti).map (fun p => p.2.Tag.Get "db") ∧
    prepareQueries (LoadByID db ti id).calls =
      ["SELECT " ++ AllField ti ++ " FROM " ++ ti.GetTableName ++ " WHERE "
        ++ ti.GetPrimaryKeyName ++ " = ?"] ∧
    prepareQueries (ExecQuery BuildQuery ResetStmt db nti ti).calls =
      [BuildQuery ti.GetTableRecord.Builder ti.GetTableName] ∧
    (∀ dest ∈ scanDests (LoadByID db ti id).calls,
      dest = Arg.recordIDAddr :: (GetFieldMapper ti).2) ∧
    (∀ (stmt : Stmt) (row : List Value) (rows : List (List Value)),
      db.Prepare (loadByIDQuery ti) = .ok stmt → stmt.Query [Arg.int64 id] = .ok (row :: rows) →
      scanDests (LoadByID db ti id).calls = [Arg.recordIDAddr :: (GetFieldMapper ti).2]) ∧
    (∃ k, scanDests (ExecQuery BuildQuery ResetStmt db nti ti).calls =
        List.replicate k (Arg.recordIDAddr :: (GetFieldMapper nti).2) ∧
      (∀ (stmt : Stmt) (rows : List (List Value)),
        db.Prepare (BuildQuery ti.GetTableRecord.Builder ti.GetTableName) = .ok stmt →
        stmt.Query ti.GetTableRecord.Builder.Params = .ok rows →
        k ≤ rows.length ∧ (rows ≠ [] → 0 < k) ∧
        ((ExecQuery BuildQuery ResetStmt db nti ti).err = none → k = rows.length))) ∧
    (sameStruct nti ti → GetFieldMapper nti = GetFieldMapper ti) ∧
    (ti.GetPrimaryKeyName :: (GetFieldMapper ti).1).length = (GetFieldMapper ti).1.length + 1 ∧
    (Arg.recordIDAddr :: (GetFieldMapper ti).2).length = (GetFieldMapper ti).1.length + 1 ∧
    List.zip (ti.GetPrimaryKeyName :: (GetFieldMapper ti).1)
        (Arg.recordIDAddr :: (GetFieldMapper ti).2) =
      (ti.GetPrimaryKeyName, Arg.recordIDAddr) ::
        (mappedFields ti).map (fun p => (p.2.Tag.Get "db", Arg.fieldAddr p.1)) ∧
    (∀ (stmt : Stmt) (c0 : Value) (cols : List Value) (rows : List (List Value)) (v0 : Int),
      db.Prepare (loadByIDQuery ti) = .ok stmt →
      stmt.Query [Arg.int64 id] = .ok ((c0 :: cols) :: rows) →
      cols.length = (GetFieldMapper ti).1.length → db.ToInt64 c0 = .ok v0 →
      (∀ p ∈ List.zip (mappedFields ti) cols, ∃ w, db.ToField p.1.1 p.2 = .ok w) →
      (LoadByID db ti id).err = none ∧
      (LoadByID db ti id).ti.GetTableRecord.RecordID = v0 ∧
      (LoadByID db ti id).ti.GetTableRecord.isNew = false ∧
      (∀ p ∈ List.zip (mappedFields ti) cols, ∀ w, db.ToField p.1.1 p.2 = .ok w →
        (LoadByID db ti id).ti.fields.get? p.1.1 = some { p.1.2 with Val := w }) ∧
      (∀ j, (∀ p ∈ mappedFields ti, p.1 ≠ j) →
        (LoadByID db ti id).ti.fields.get? j = ti.fields.get? j)) ∧
    (∀ (stmt : Stmt) (rows : List (List Value)),
      db.Prepare (BuildQuery ti.GetTableRecord.Builder ti.GetTableName) = .ok stmt →
      stmt.Query ti.GetTableRecord.Builder.Params = .ok rows →
      (∀ row ∈ rows, ∃ c0 cols v0, row = c0 :: cols ∧
        cols.length = (GetFieldMapper nti).1.length ∧ db.ToInt64 c0 = .ok v0 ∧
        ∀ p ∈ List.zip (mappedFields nti) cols, ∃ w, db.ToField p.1.1 p.2 = .ok w) →
      (ExecQuery BuildQuery ResetStmt db nti ti).err = none ∧
      (ExecQuery BuildQuery ResetStmt db nti ti).list.length = rows.length ∧
      (∀ (k : Nat) (c0 : Value) (cols : List Value) (v0 : Int),
        rows.get? k = some (c0 :: cols) → db.ToInt64 c0 = .ok v0 →
        ∃ r, (ExecQuery BuildQuery ResetStmt db nti ti).list.get? k = some r ∧
          r.GetTableRecord.RecordID = v0 ∧ r.GetTableRecord.isNew = false ∧
          (∀ p ∈ List.zip (mappedFields nti) cols, ∀ w, db.ToField p.1.1 p.2 = .ok w →
            r.fields.get? p.1.1 = some { p.1.2 with Val := w }) ∧
          (∀ j, (∀ p ∈ mappedFields nti, p.1 ≠ j) → r.fields.get? j = nti.fields.get? j))) := by
  refine ⟨Join_eq_intercalate _ _, ?_, LoadByID_prepares db ti id,
    ExecQuery_prepares BuildQuery ResetStmt db nti ti, LoadByID_scans db ti id,
    fun stmt row rows hp hq => LoadByID_scans_row db ti id stmt row rows hp hq,
    ExecQuery_scans BuildQuery ResetStmt db nti ti, GetFieldMapper_congr nti ti, ?_, ?_, ?_,
    ?_, ?_⟩
  · rw [GetFieldMapper_eq_spec]
    rfl
  · simp
  · simp [GetFieldMapper_length]
  · rw [List.zip_cons_cons, GetFieldMapper_zip]
  · intro stmt c0 cols rows v0 hp hq hlen h0 hconv
    obtain ⟨r1, hs, htr, _, _, _, hother, hmine⟩ :=
      rowsScan_scanParams db ti c0 cols v0 hlen h0 hconv
    obtain ⟨herr, hti⟩ := LoadByID_of_row db ti id stmt (c0 :: cols) rows hp hq
    rw [hs] at herr hti
    rw [herr, hti rfl]
    refine ⟨rfl, ?_, rfl, hmine, hother⟩
    simp [Rec.GetTableRecord, TableRecord.SetIsNew, htr]
  · intro stmt rows hp hq hrows
    have hok : ∀ row ∈ rows, (rowsScan db row (scanParams nti) nti).2 = none := by
      intro row hrow
      obtain ⟨c0, cols, v0, hrc, hlen, h0, hconv⟩ := hrows row hrow
      obtain ⟨r1, hs, _⟩ := rowsScan_scanParams db nti c0 cols v0 hlen h0 hconv
      rw [hrc, hs]
    obtain ⟨herr, hlist⟩ := ExecQuery_of_all_ok BuildQuery ResetStmt db nti ti stmt rows hp hq hok
    refine ⟨herr, by rw [hlist, List.length_map], ?_⟩
    intro k c0 cols v0 hk h0
    have hmem : (c0 :: cols) ∈ rows := List.get?_mem hk
    obtain ⟨c1, cols1, v1, hrc, hlen, _, hconv⟩ := hrows _ hmem
    cases hrc
    obtain ⟨r1, hs, htr, _, _, _, hother, hmine⟩ :=
      rowsScan_scanParams db nti c0 cols v0 hlen h0 hconv
    refine ⟨{ r1 with tableRecord := r1.GetTableRecord.SetIsNew false }, ?_, ?_, rfl, hmine, hother⟩
    · rw [List.get?_eq_getElem?] at hk ⊢
      rw [hlist, List.getElem?_map, hk]
      simp [hs]
    · simp [Rec.GetTableRecord, TableRecord.SetIsNew, htr]

/-- C5 witness: for `newUser` the column list is `id,name,email`; on a driver that returns
the row `(7, grace, grace@example.org)`, `LoadByID` makes one `Scan` into `&RecordID`, `&Name`,
`&Email` and leaves `RecordID` 7, `isNew` false, `Name` grace; a fresh instance of the same
struct has the same mapper; and `ExecQuery`, with a builder that selects the columns of
`AllField`, returns one instance loaded the same way. -/
theorem scan_positions_follow_AllField_witness :
    AllField newUser = "id,name,email" ∧
    prepareQueries (LoadByID okConn newUser 7).calls =
      ["SELECT id,name,email FROM users WHERE id = ?"] ∧
    scanDests (LoadByID okConn newUser 7).calls =
      [[Arg.recordIDAddr, Arg.fieldAddr 1, Arg.fieldAddr 2]] ∧
    (sameStruct storedUser newUser ∧ GetFieldMapper storedUser = GetFieldMapper newUser) ∧
    ((LoadByID okConn newUser 7).err = none ∧
      (LoadByID okConn newUser 7).ti.GetTableRecord.RecordID = 7 ∧
      (LoadByID okConn newUser 7).ti.GetTableRecord.isNew = false ∧
      (LoadByID okConn newUser 7).ti.fields.get? 1 =
        some { Name := "Name", Tag := ⟨[("json", "name"), ("db", "name")]⟩, CanInterface := true,
               CanSet := true, Val := Value.str "grace" }) ∧
    ((ExecQuery (fun _ t => "SELECT " ++ AllField newUser ++ " FROM " ++ t) id okConn
        newUser newUser).err = none ∧
      prepareQueries (ExecQuery (fun _ t => "SELECT " ++ AllField newUser ++ " FROM " ++ t) id
        okConn newUser newUser).calls = ["SELECT id,name,email FROM users"] ∧
      ∃ r, (ExecQuery (fun _ t => "SELECT " ++ AllField newUser ++ " FROM " ++ t) id okConn
          newUser newUser).list.get? 0 = some r ∧
        r.GetTableRecord.RecordID = 7 ∧ r.GetTableRecord.isNew = false) :=
  ⟨by decide,
   (scan_positions_follow_AllField (fun _ t => t) id okConn newUser storedUser 7).2.2.1,
   (scan_positions_follow_AllField (fun _ t => t) id okConn newUser storedUser 7).2.2.2.2.2.1
      graceStmt graceRow [] rfl rfl,
   ⟨rfl,
    (scan_positions_follow_AllField (fun _ t => t) id okConn newUser storedUser 7).2.2.2.2.2.2.2.1
      rfl⟩,
   ((scan_positions_follow_AllField (fun _ t => t) id okConn newUser storedUser 7).2.2.2.2.2.2.2.2.2.2.2.1
      graceStmt (Value.int 7) [Value.str "grace", Value.str "grace@example.org"] [] 7 rfl rfl
      (by decide) rfl (fun p _ => ⟨p.2, rfl⟩)).elim
     (fun herr hrest => ⟨herr, hrest.1, hrest.2.1,
       hrest.2.2.1
         ((1, { Name := "Name", Tag := ⟨[("json", "name"), ("db", "name")]⟩, CanInterface := true,
                CanSet := true, Val := Value.str "ada" }), Value.str "grace")
         (by decide) (Value.str "grace") rfl⟩),
   ((scan_positions_follow_AllField (fun _ t => "SELECT " ++ AllField newUser ++ " FROM " ++ t)
        id okConn newUser newUser 7).2.2.2.2.2.2.2.2.2.2.2.2
      graceStmt [graceRow] rfl rfl
      (fun row hrow => ⟨Value.int 7, [Value.str "grace", Value.str "grace@example.org"], 7,
        List.eq_of_mem_singleton hrow, by decide, rfl, fun p _ => ⟨p.2, rfl⟩⟩)).elim
     (fun herr hrest => ⟨herr,
       (scan_positions_follow_AllField (fun _ t => "SELECT " ++ AllField newUser ++ " FROM " ++ t)
         id okConn newUser newUser 7).2.2.2.1,
       (hrest.2 0 (Value.int 7) [Value.str "grace", Value.str "grace@example.org"] 7 rfl rfl).elim
         (fun r hr => ⟨r, hr.1, hr.2.1, hr.2.2.1⟩)⟩)⟩

/-! ## Reflection: what `GetFieldMapper` returns -/

/-- C6: for every record struct, `GetFieldMapper` returns the `db` tags and the addresses of
exactly the fields that are both interfaceable and settable: the two slices have equal length,
the mapped fields appear once each in declaration order (strictly increasing indices), a pair
`(i, f)` is mapped exactly when `f` is the i-th field and is interfaceable and settable, the
k-th name is the `db` tag of the k-th mapped field and the k-th value the address of that same
field, the tag reads `""` when the field has no `db` key, and a field that is not
interfaceable or not settable has its address in no entry. -/
theorem GetFieldMapper_mapped_fields (ti : Rec) :
    GetFieldMapper ti =
      ((mappedFields ti).map (fun p => p.2.Tag.Get "db"),
       (mappedFields ti).map (fun p => Arg.fieldAddr p.1)) ∧
    (GetFieldMapper ti).1.length = (GetFieldMapper ti).2.length ∧
    List.Pairwise (fun a b => a < b) ((mappedFields ti).map Prod.fst) ∧
    (∀ (i : Nat) (f : StructField), (i, f) ∈ mappedFields ti ↔
      ti.fields.get? i = some f ∧ f.CanInterface = true ∧ f.CanSet = true) ∧
    (∀ f : StructField, (∀ p ∈ f.Tag.pairs, p.1 ≠ "db") → f.Tag.Get "db" = "") ∧
    (∀ (i : Nat) (f : StructField), ti.fields.get? i = some f →
      (f.CanInterface = false ∨ f.CanSet = false) → Arg.fieldAddr i ∉ (GetFieldMapper ti).2) := by
  refine ⟨GetFieldMapper_eq_spec ti, GetFieldMapper_length ti, mappedFields_index_increasing ti,
    mem_mappedFields ti, ?_, ?_⟩
  · intro f hf
    unfold StructTag.Get
    have : f.Tag.pairs.find? (fun p => p.1 == "db") = none := by
      rw [List.find?_eq_none]
      intro p hp
      simpa using hf p hp
    rw [this]
  · intro i f hget hbad hmem
    rw [GetFieldMapper_eq_spec] at hmem
    simp only [GetFieldMapperSpec, List.mem_map, Arg.fieldAddr.injEq] at hmem
    obtain ⟨⟨j, g⟩, hjg, hij⟩ := hmem
    simp only at hij
    subst hij
    have h2 := (mem_mappedFields ti j g).1 hjg
    rw [hget] at h2
    obtain ⟨hfg, hc, hs⟩ := h2
    cases hfg
    rcases hbad with h | h
    · rw [hc] at h; cases h
    · rw [hs] at h; cases h

/-- C6 witness: in `newUser` the unexported `tr` field (index 0) has no `db` key and is not
settable, and its address is not among the values. -/
theorem GetFieldMapper_mapped_fields_witness :
    GetFieldMapper newUser = (["name", "email"], [Arg.fieldAddr 1, Arg.fieldAddr 2]) ∧
    Arg.fieldAddr 0 ∉ (GetFieldMapper newUser).2 ∧
    StructTag.Get ⟨[("json", "name")]⟩ "db" = "" :=
  ⟨by decide,
   (GetFieldMapper_mapped_fields newUser).2.2.2.2.2 0
     { Name := "tr", Tag := ⟨[]⟩, CanInterface := false, CanSet := false, Val := Value.null }
     (by decide) (Or.inl rfl),
   (GetFieldMapper_mapped_fields newUser).2.2.2.2.1
     { Name := "Name", Tag := ⟨[("json", "name")]⟩, CanInterface := true, CanSet := true,
       Val := Value.null }
     (by decide)⟩

/-! ## The update statement -/

/-- C8: for every record none of whose mapped names equals the primary-key name,
`genUpdateQuery` is `"UPDATE  T SET f1 = ?, ..., fn = ? WHERE pk = ?"` (assignments joined by
`", "`); on the update branch `Save` executes it with the n field values of `GetFieldMapper`
followed by `RecordID`, n+1 parameters; and in order the k-th assignment `fk = ?` meets the
address of the field tagged `fk`, the final `pk = ?` meets `RecordID`. (Stated for every n,
n = 0 included.) -/
theorem genUpdateQuery_shape (db : Conn) (ti : Rec)
    (hpk : ∀ n ∈ (GetFieldMapper ti).1, n ≠ ti.GetPrimaryKeyName) :
    genUpdateQuery ti =
      "UPDATE  " ++ ti.GetTableName ++ " SET "
        ++ Join ((GetFieldMapper ti).1.map (fun f => f ++ " = ?")) ", "
        ++ " WHERE " ++ ti.GetPrimaryKeyName ++ " = ?" ∧
    (ti.GetTableRecord.isNew = false →
      (Save db ti).calls.head? =
        some (Call.Exec (genUpdateQuery ti)
          ((GetFieldMapper ti).2 ++ [Arg.int64 ti.GetTableRecord.RecordID])) ∧
      execParams (Save db ti).calls =
        [(GetFieldMapper ti).2 ++ [Arg.int64 ti.GetTableRecord.RecordID]]) ∧
    ((GetFieldMapper ti).2 ++ [Arg.int64 ti.GetTableRecord.RecordID]).length =
      (GetFieldMapper ti).1.length + 1 ∧
    ((GetFieldMapper ti).1.map (fun f => f ++ " = ?")
      ++ [ti.GetPrimaryKeyName ++ " = ?"]).length = (GetFieldMapper ti).1.length + 1 ∧
    List.zip ((GetFieldMapper ti).1.map (fun f => f ++ " = ?")
        ++ [ti.GetPrimaryKeyName ++ " = ?"])
      ((GetFieldMapper ti).2 ++ [Arg.int64 ti.GetTableRecord.RecordID]) =
      (mappedFields ti).map (fun p => (p.2.Tag.Get "db" ++ " = ?", Arg.fieldAddr p.1))
        ++ [(ti.GetPrimaryKeyName ++ " = ?", Arg.int64 ti.GetTableRecord.RecordID)] := by
  refine ⟨?_, ?_, ?_, ?_, ?_⟩
  · unfold genUpdateQuery
    rw [getUpdateFieldParams_of_no_key ti hpk]
  · intro hn
    rw [Save_of_not_isNew db ti hn]
    refine ⟨?_, (execQueries_executeSaveUpdateQuery db _ _).2⟩
    simp only [executeSaveUpdateQuery]
    split
    · rfl
    · split <;> rfl
  · simp [GetFieldMapper_length]
  · simp
  · rw [List.zip_append (by simp [GetFieldMapper_length])]
    rw [GetFieldMapper_eq_spec]
    simp only [GetFieldMapperSpec, List.map_map]
    rw [zip_map_map_same]
    simp [Function.comp_def]

/-- C8 witness: the update of `storedUser` (table `users`, key `id`, fields `name`, `email`,
`RecordID` 7). -/
theorem genUpdateQuery_shape_witness :
    (∀ n ∈ (GetFieldMapper storedUser).1, n ≠ storedUser.GetPrimaryKeyName) ∧
    genUpdateQuery storedUser = "UPDATE  users SET name = ?, email = ? WHERE id = ?" ∧
    execParams (Save okConn storedUser).calls =
      [[Arg.fieldAddr 1, Arg.fieldAddr 2, Arg.int64 7]] :=
  ⟨by decide, by decide,
   ((genUpdateQuery_shape okConn storedUser (by decide)).2.1 (by decide)).2⟩

end Record

namespace Config

/-! ## The configuration singleton -/

theorem GetInstance_of_done {D : Type} (zero : D) (load : CacheConfig D → CacheConfig D)
    (s : State D) (h : s.onceDone = true) : GetInstance zero load s = (s.cacheConfig, s) := by
  simp [GetInstance, onceDo, h]

theorem callSequence_of_done {D : Type} (zero : D) (load : CacheConfig D → CacheConfig D)
    (n : Nat) : ∀ (s : State D), s.onceDone = true →
    callSequence zero load n s = (List.replicate n s.cacheConfig, s) := by
  induction n with
  | zero => intro s _; rfl
  | succ n ih =>
    intro s h
    simp [callSequence, GetInstance_of_done zero load s h, ih s h, List.replicate_succ]

theorem GetInstance_init {D : Type} (zero : D) (load : CacheConfig D → CacheConfig D) :
    GetInstance zero load (State.init D) =
      (some 0,
       { heap := [load { DefaultCacheConfig := zero, UserTimeToRefresh := 0 }],
         cacheConfig := some 0, onceDone := true, loadCalls := [0] }) := by
  simp [GetInstance, onceDo, initInstance, State.init, List.modify]

/-- C7: in any sequence of `n + 1` calls starting from program start, the first call allocates
one `CacheConfig` (pointer 0 into a heap that was empty), loads the environment configuration
into it and returns it; every call of the sequence returns that same pointer; `LoadEnvConfig`
has been invoked exactly once, on that instance, after the first call and still exactly once
after the whole sequence; and the instance is the only one ever allocated. -/
theorem GetInstance_returns_one_instance {D : Type} (zero : D)
    (LoadEnvConfig : CacheConfig D → CacheConfig D) (n : Nat) :
    (State.init D).heap = [] ∧
    (GetInstance zero LoadEnvConfig (State.init D)).1 = some 0 ∧
    (GetInstance zero LoadEnvConfig (State.init D)).2.heap =
      [LoadEnvConfig { DefaultCacheConfig := zero, UserTimeToRefresh := 0 }] ∧
    (GetInstance zero LoadEnvConfig (State.init D)).2.loadCalls = [0] ∧
    (callSequence zero LoadEnvConfig (n + 1) (State.init D)).1 =
      List.replicate (n + 1) (GetInstance zero LoadEnvConfig (State.init D)).1 ∧
    (callSequence zero LoadEnvConfig (n + 1) (State.init D)).2.loadCalls = [0] ∧
    (callSequence zero LoadEnvConfig (n + 1) (State.init D)).2.heap =
      [LoadEnvConfig { DefaultCacheConfig := zero, UserTimeToRefresh := 0 }] := by
  have h1 := GetInstance_init zero LoadEnvConfig
  have h2 : callSequence zero LoadEnvConfig (n + 1) (State.init D) =
      (List.replicate (n + 1) (some 0),
       { heap := [LoadEnvConfig { DefaultCacheConfig := zero, UserTimeToRefresh := 0 }],
         cacheConfig := some 0, onceDone := true, loadCalls := [0] }) := by
    simp only [callSequence, h1]
    rw [callSequence_of_done zero LoadEnvConfig n _ rfl]
    simp [List.replicate_succ]
  rw [h1, h2]
  exact ⟨rfl, rfl, rfl, rfl, rfl, rfl, rfl⟩

end Config
